import Mathlib

/-!
Shallow embedding of the `jsjson` Go library (`src/main.go`): the
`JSONValue` wrapper with sticky error propagation, the path-navigation
engine (`Get`), the type-coercion layer (`String`, `Int`, `Float64`,
`Bool`, `Array`, `Object`), the collection projections, `Raw`, `IsNull`,
`Stringify` and `Parse`.

Modelling conventions:
* Go `interface{}` values that can appear in a parsed JSON tree (or be
  wrapped via `Valid`) are modelled by the inductive `GoVal`; a Go `nil`
  interface is `GoVal.null`.  Go `float64` is modelled by `Rat` (every
  finite float is a rational; no claim here depends on rounding of
  non-representable values), Go `int` by the unbounded `Int` (no claim
  depends on 64-bit overflow).
* Path keys (the variadic `keys ...interface{}` of `Get`) are modelled by
  `GoKey`; the `other` constructor stands for any further Go value and
  carries the strings that Go's `%T` and `%v` verbs would print for it.
* External standard-library collaborators that are not part of the
  repository are parameters of the definitions that call them:
  `g : Rat → String` is `fmt`'s `%v` rendering of a `float64`,
  `fmtV : GoVal → String` is `fmt.Sprintf("%v", value)` on an arbitrary
  value, `pf` is `strconv.ParseFloat`, `decode` is `json.Unmarshal` into
  `interface{}`, `marshal`/`encode` are `json.Marshal` /
  `json.Encoder.Encode`.  `strconv.Atoi` and `strconv.ParseBool` have
  small fully-documented behaviour and are modelled concretely.
* Go error values are modelled by `JSONError` (operation tag plus the
  formatted message of the wrapped error).
-/

/-- The `JSONError` struct of `src/main.go` (lines 18-25): an operation
tag `Op` and a wrapped error, modelled here by its formatted message. -/
structure JSONError where
  op : String
  msg : String
deriving DecidableEq

/-- A Go `interface{}` value as it can appear in the `data` field of a
`JSONValue`: the result of `json.Unmarshal` into `interface{}` (null,
bool, float64, string, `[]interface{}`, `map[string]interface{}`), plus
`int` (producible via `Valid`) and a catch-all `other` carrying the
strings Go's `%T` and `%v` verbs print for the value. -/
inductive GoVal where
  | null
  | bool (b : Bool)
  | num (q : Rat)
  | int (n : Int)
  | str (s : String)
  | arr (elems : List GoVal)
  | obj (entries : List (String × GoVal))
  | other (tyName : String) (valRepr : String)

/-- A caller-supplied path key (one element of `keys ...interface{}` in
`JSONValue.Get`): the types `convertToIndex` distinguishes, plus a
catch-all `other` with its `%T` and `%v` renderings. -/
inductive GoKey where
  | int (n : Int)
  | str (s : String)
  | num (q : Rat)
  | other (tyName : String) (valRepr : String)

/-- Go's `%T` verb on a `GoVal` (the type name of the dynamic value). -/
def goTypeName : GoVal → String
  | .null => "<nil>"
  | .bool _ => "bool"
  | .num _ => "float64"
  | .int _ => "int"
  | .str _ => "string"
  | .arr _ => "[]interface \x7b\x7d"
  | .obj _ => "map[string]interface \x7b\x7d"
  | .other t _ => t

/-- Go's `%T` verb on a path key. -/
def GoKey.tyOf : GoKey → String
  | .int _ => "int"
  | .str _ => "string"
  | .num _ => "float64"
  | .other t _ => t

/-- Go's `%v` verb on a path key; `g` renders a `float64`. -/
def keyRepr (g : Rat → String) : GoKey → String
  | .int n => toString n
  | .str s => s
  | .num q => g q
  | .other _ r => r

/-- Escaping of one character under Go's `%q` verb (the cases relevant to
JSON object keys; control-character escapes are not needed by any claim). -/
def goQuoteChar (c : Char) : List Char :=
  if c = '"' then ['\\', '"'] else if c = '\\' then ['\\', '\\'] else [c]

/-- Go's `%q` verb on a string: double quotes around the escaped text. -/
def goQuote (s : String) : String :=
  ⟨'"' :: s.data.foldr (fun c acc => goQuoteChar c ++ acc) ['"']⟩

/-- Numeric value of a list of decimal digit characters. -/
def digitsVal (l : List Char) : Nat :=
  l.foldl (fun n c => 10 * n + (c.toNat - 48)) 0

/-- `strconv.Atoi` (Go standard library): an optional single `+`/`-` sign
followed by at least one decimal digit; anything else is a syntax error.
Go's `int` is modelled as the unbounded `Int`, so the range error of
`Atoi` on out-of-range input is not modelled (no claim depends on it). -/
def goAtoi (s : String) : Except String Int :=
  let body : List Char :=
    match s.data with
    | '-' :: rest => rest
    | '+' :: rest => rest
    | l => l
  let sign : Int := match s.data with | '-' :: _ => -1 | _ => 1
  if body ≠ [] ∧ body.all Char.isDigit then
    .ok (sign * (digitsVal body))
  else
    .error ("strconv.Atoi: parsing " ++ goQuote s ++ ": invalid syntax")

/-- `strconv.ParseBool` (Go standard library): accepts exactly the listed
literals. -/
def goParseBool (s : String) : Option Bool :=
  if s ∈ (["1", "t", "T", "TRUE", "true", "True"] : List String) then some true
  else if s ∈ (["0", "f", "F", "FALSE", "false", "False"] : List String) then some false
  else none

/-- Go's `int(f)` conversion of a `float64`: truncation toward zero. -/
def ratTrunc (q : Rat) : Int :=
  Int.tdiv q.num (q.den : Int)

/-- The `JSONValue` struct of `src/main.go` (lines 12-15): a dynamic JSON
wrapper holding a data payload and an optional error. -/
structure JSONValue where
  data : GoVal
  err : Option JSONError

/-- `Valid` (`src/main.go` lines 638-640): wraps a Go value with no error. -/
def Valid (data : GoVal) : JSONValue :=
  ⟨data, none⟩

/-- `convertToIndex` (`src/main.go` lines 612-623): converts a path key to
an array index.  A native `int` is returned as is (negative included), a
string goes through `strconv.Atoi`, a `float64` is truncated toward zero,
and any other type is an error formatted with `%T`. -/
def convertToIndex (key : GoKey) : Except String Int :=
  match key with
  | .int n => .ok n
  | .str s => goAtoi s
  | .num q => .ok (ratTrunc q)
  | .other t _ => .error ("cannot convert " ++ t ++ " to array index")

/-- One iteration of the loop body of `JSONValue.Get` (`src/main.go`
lines 287-335): given the current node, the key at this position and the
zero-based position `i`, either fail with the error the Go code builds at
this position, or produce the next current node.  The `nil` check of
line 288 is the `.null` case; the `switch` of line 295 gives the
remaining cases. -/
def stepGet (g : Rat → String) (current : GoVal) (key : GoKey) (i : Nat) :
    Except JSONError GoVal :=
  match current with
  | .null =>
      .error ⟨"Get", "cannot access key " ++ keyRepr g key ++
        " on nil value at position " ++ toString i⟩
  | .obj entries =>
      match key with
      | .str keyStr =>
          match entries.lookup keyStr with
          | some child => .ok child
          | none =>
              .error ⟨"Get", "key " ++ goQuote keyStr ++
                " not found at position " ++ toString i⟩
      | _ =>
          .error ⟨"Get", "key must be string for object access, got " ++
            key.tyOf ++ " at position " ++ toString i⟩
  | .arr elems =>
      match convertToIndex key with
      | .error convErr =>
          .error ⟨"Get", "invalid array index " ++ keyRepr g key ++
            " at position " ++ toString i ++ ": " ++ convErr⟩
      | .ok idx =>
          if idx < 0 ∨ idx ≥ (elems.length : Int) then
            .error ⟨"Get", "array index " ++ toString idx ++
              " out of bounds (length: " ++ toString elems.length ++
              ") at position " ++ toString i⟩
          else
            .ok (elems.getD idx.toNat .null)
  | _ =>
      .error ⟨"Get", "cannot access key " ++ keyRepr g key ++ " on type " ++
        goTypeName current ++ " at position " ++ toString i⟩

/-- The `for i, key := range keys` loop of `JSONValue.Get` (`src/main.go`
lines 287-337): on the first failing step the loop returns a fresh
failure value and never looks at the remaining keys; if all keys are
consumed the final current node is wrapped with no error. -/
def getLoop (g : Rat → String) (current : GoVal) (keys : List GoKey) (i : Nat) :
    JSONValue :=
  match keys with
  | [] => ⟨current, none⟩
  | key :: rest =>
      match stepGet g current key i with
      | .error e => ⟨.null, some e⟩
      | .ok next => getLoop g next rest (i + 1)

/-- `JSONValue.Get` (`src/main.go` lines 277-338): propagate an existing
error unchanged, return the receiver on an empty key list, otherwise walk
the keys from position 0. -/
def JSONValue.Get (g : Rat → String) (j : JSONValue) (keys : List GoKey) :
    JSONValue :=
  match j.err with
  | some _ => j
  | none =>
      match keys with
      | [] => j
      | _ => getLoop g j.data keys 0

/-- `JSONValue.String` (`src/main.go` lines 357-370); primed because
`String` is a core Lean name.  `fmtV` is `fmt.Sprintf("%v", v)` for the
default branch. -/
def JSONValue.String' (fmtV : GoVal → String) (j : JSONValue) :
    Except JSONError String :=
  match j.err with
  | some e => .error e
  | none =>
      match j.data with
      | .str v => .ok v
      | .null => .ok ""
      | v => .ok (fmtV v)

/-- `JSONValue.StringOr` (`src/main.go` lines 373-379): the default is
substituted both on error and when the coerced string is empty. -/
def JSONValue.StringOr (fmtV : GoVal → String) (j : JSONValue)
    (defaultVal : String) : String :=
  match j.String' fmtV with
  | .error _ => defaultVal
  | .ok s => if s = "" then defaultVal else s

/-- `JSONValue.Int` (`src/main.go` lines 382-402); primed because `Int`
is a core Lean name. -/
def JSONValue.Int' (j : JSONValue) : Except JSONError Int :=
  match j.err with
  | some e => .error e
  | none =>
      match j.data with
      | .num q => .ok (ratTrunc q)
      | .int n => .ok n
      | .str v =>
          match goAtoi v with
          | .ok i => .ok i
          | .error _ =>
              .error ⟨"Int", "cannot convert string " ++ goQuote v ++ " to int"⟩
      | .null => .ok 0
      | v => .error ⟨"Int", "cannot convert " ++ goTypeName v ++ " to int"⟩

/-- `JSONValue.IntOr` (`src/main.go` lines 405-410). -/
def JSONValue.IntOr (j : JSONValue) (defaultValue : Int) : Int :=
  match j.Int' with
  | .ok i => i
  | .error _ => defaultValue

/-- `JSONValue.Float64` (`src/main.go` lines 413-433); `pf` is
`strconv.ParseFloat`. -/
def JSONValue.Float64 (pf : String → Option Rat) (j : JSONValue) :
    Except JSONError Rat :=
  match j.err with
  | some e => .error e
  | none =>
      match j.data with
      | .num q => .ok q
      | .int n => .ok (n : Rat)
      | .str v =>
          match pf v with
          | some f => .ok f
          | none =>
              .error ⟨"Float64", "cannot convert string " ++ goQuote v ++
                " to float64"⟩
      | .null => .ok 0
      | v =>
          .error ⟨"Float64", "cannot convert " ++ goTypeName v ++ " to float64"⟩

/-- `JSONValue.Bool` (`src/main.go` lines 444-464); primed because `Bool`
is a core Lean name. -/
def JSONValue.Bool' (j : JSONValue) : Except JSONError Bool :=
  match j.err with
  | some e => .error e
  | none =>
      match j.data with
      | .bool b => .ok b
      | .str v =>
          match goParseBool v with
          | some b => .ok b
          | none =>
              .error ⟨"Bool", "cannot convert string " ++ goQuote v ++ " to bool"⟩
      | .num q => .ok (decide (q ≠ 0))
      | .null => .ok false
      | v => .error ⟨"Bool", "cannot convert " ++ goTypeName v ++ " to bool"⟩

/-- `JSONValue.Array` (`src/main.go` lines 475-490); primed because
`Array` is a core Lean name. -/
def JSONValue.Array' (j : JSONValue) : Except JSONError (List JSONValue) :=
  match j.err with
  | some e => .error e
  | none =>
      match j.data with
      | .arr elems => .ok (elems.map fun item => ⟨item, none⟩)
      | d => .error ⟨"Array", "value is not an array, got " ++ goTypeName d⟩

/-- `JSONValue.Object` (`src/main.go` lines 493-508); the Go map result is
modelled as an association list in entry order. -/
def JSONValue.Object (j : JSONValue) : Except JSONError (List (String × JSONValue)) :=
  match j.err with
  | some e => .error e
  | none =>
      match j.data with
      | .obj entries => .ok (entries.map fun kv => (kv.1, (⟨kv.2, none⟩ : JSONValue)))
      | d => .error ⟨"Object", "value is not an object, got " ++ goTypeName d⟩

/-- `JSONValue.Raw` (`src/main.go` lines 511-516): a failed value exposes
`nil`, a successful one its data payload. -/
def JSONValue.Raw (j : JSONValue) : GoVal :=
  match j.err with
  | some _ => .null
  | none => j.data

/-- The Go `j.data == nil` test. -/
def GoVal.isNil : GoVal → Bool
  | .null => true
  | _ => false

/-- `JSONValue.IsNull` (`src/main.go` lines 519-521): no error and the
data payload is the nil interface. -/
def JSONValue.IsNull (j : JSONValue) : Bool :=
  j.err.isNone && j.data.isNil

/-- The trailing-newline strip of `Stringify` (`src/main.go` lines
236-239): drop a final `'\n'` left by `json.Encoder.Encode`. -/
def stripNewline (s : String) : String :=
  match s.data.getLast? with
  | some '\n' => ⟨s.data.dropLast⟩
  | _ => s

/-- The argument of `Stringify` (`v interface{}`): either a `JSONValue`
or any other Go value (a Go `nil` is `raw GoVal.null`). -/
inductive StringifyArg where
  | jval (v : JSONValue)
  | raw (d : GoVal)

/-- The encoder call of `Stringify` (`src/main.go` lines 229-241):
`encode` is `json.Encoder.Encode` (its output still carries the trailing
newline, which the Go code strips); an encode failure is wrapped with
operation tag `"Stringify"`. -/
def encodeVia (encode : GoVal → Except String String) (d : GoVal) :
    Except JSONError String :=
  match encode d with
  | .error m => .error ⟨"Stringify", m⟩
  | .ok s => .ok (stripNewline s)

/-- `Stringify` (`src/main.go` lines 207-242): a Go `nil` argument is
rendered as `"null"` directly; a failed `JSONValue` returns its error; a
successful `JSONValue` is unwrapped to its payload and, like any other
value, handed to the encoder. -/
def Stringify (encode : GoVal → Except String String) :
    StringifyArg → Except JSONError String
  | .raw .null => .ok "null"
  | .jval v =>
      match v.err with
      | some e => .error e
      | none => encodeVia encode v.data
  | .raw d => encodeVia encode d

/-- The argument of `Parse` (`v interface{}`): Go `nil`, a string, a byte
slice (modelled as its text), an existing `JSONValue`, or any other Go
value (marshalled first). -/
inductive ParseArg where
  | goNil
  | str (s : String)
  | bytes (b : String)
  | jval (v : JSONValue)
  | other (d : GoVal)

/-- The `json.Unmarshal` call of `Parse` (`src/main.go` lines 136-141):
a decode failure is wrapped with operation tag `"Parse"`. -/
def runDecode (decode : String → Except String GoVal) (s : String) : JSONValue :=
  match decode s with
  | .error m => ⟨.null, some ⟨"Parse", m⟩⟩
  | .ok d => ⟨d, none⟩

/-- `Parse` with no destination argument (`src/main.go` lines 71-142,
with `len(dest) == 0` so `structDest` is `nil`): `decode` is
`json.Unmarshal` into `interface{}` and `marshal` is `json.Marshal`.
A `JSONValue` argument is returned as is, error and data included. -/
def Parse (decode : String → Except String GoVal)
    (marshal : GoVal → Except String String) : ParseArg → JSONValue
  | .goNil => ⟨.null, some ⟨"Parse", "input is nil"⟩⟩
  | .str s =>
      if s = "" then ⟨.null, some ⟨"Parse", "empty string"⟩⟩
      else runDecode decode s
  | .bytes b =>
      if b = "" then ⟨.null, some ⟨"Parse", "empty byte slice"⟩⟩
      else runDecode decode b
  | .jval v => v
  | .other d =>
      match marshal d with
      | .error m => ⟨.null, some ⟨"Parse", m⟩⟩
      | .ok s => runDecode decode s

/-- Folding `stepGet` over a key list: the first failing step's error, or
the node reached after all steps.  Used to state the fail-fast property
of `JSONValue.Get`. -/
def walkSteps (g : Rat → String) (current : GoVal) (keys : List GoKey) (i : Nat) :
    Except JSONError GoVal :=
  match keys with
  | [] => .ok current
  | key :: rest =>
      match stepGet g current key i with
      | .error e => .error e
      | .ok next => walkSteps g next rest (i + 1)

/-- A concrete instance of the external encode service, used to
instantiate the abstract `encode` parameter in witnesses: it renders the
null node the way `json.Encoder.Encode` does (with its trailing newline)
and fails on everything else. -/
def encodeW : GoVal → Except String String
  | .null => .ok "null\n"
  | _ => .error "boom"

/-! ### Helper lemmas about the navigation loop -/

/-- The navigation loop is the fold of `stepGet`: its result is the node
reached by `walkSteps` on success and the first step error on failure. -/
theorem getLoop_eq_walkSteps (g : Rat → String) (keys : List GoKey) :
    ∀ (c : GoVal) (i : Nat),
      getLoop g c keys i =
        match walkSteps g c keys i with
        | .ok v => ⟨v, none⟩
        | .error e => ⟨.null, some e⟩ := by
  induction keys with
  | nil => intro c i; rfl
  | cons k rest ih =>
      intro c i
      unfold getLoop walkSteps
      cases h : stepGet g c k i with
      | error e => simp
      | ok v => simpa using ih v (i + 1)

/-- Splitting `walkSteps` at a list append. -/
theorem walkSteps_append (g : Rat → String) (xs ys : List GoKey) :
    ∀ (c : GoVal) (i : Nat),
      walkSteps g c (xs ++ ys) i =
        match walkSteps g c xs i with
        | .ok v => walkSteps g v ys (i + xs.length)
        | .error e => .error e := by
  induction xs with
  | nil => intro c i; simp [walkSteps]
  | cons k rest ih =>
      intro c i
      simp only [List.cons_append]
      unfold walkSteps
      cases h : stepGet g c k i with
      | error e => simp
      | ok v =>
          simp only []
          rw [ih v (i + 1)]
          have hlen : i + 1 + rest.length = i + (k :: rest).length := by
            simp [List.length_cons]; omega
          rw [hlen]
          cases walkSteps g v rest (i + 1) with
          | error e => rfl
          | ok w => cases ys <;> rfl

/-- `Get` on a successful receiver and a nonempty key list runs the loop
from position 0. -/
theorem Get_ne_nil (g : Rat → String) (d : GoVal) (keys : List GoKey)
    (h : keys ≠ []) : (Valid d).Get g keys = getLoop g d keys 0 := by
  obtain ⟨q, qs, rfl⟩ := List.exists_cons_of_ne_nil h
  rfl

/-- Every error produced by a single navigation step at position `i`
carries a message citing `i` after the words `at position`. -/
theorem stepGet_error_position (g : Rat → String) (c : GoVal) (key : GoKey)
    (i : Nat) (e : JSONError) (h : stepGet g c key i = .error e) :
    ∃ a b, e.msg = a ++ ("at position " ++ toString i) ++ b := by
  cases c with
  | null =>
      simp only [stepGet, Except.error.injEq] at h
      refine ⟨"cannot access key " ++ keyRepr g key ++ " on nil value ", "", ?_⟩
      rw [← h]
      rw [show (" on nil value at position " : String) =
        " on nil value " ++ "at position " from rfl]
      simp only [String.append_assoc, String.append_empty]
  | obj entries =>
      cases key with
      | str keyStr =>
          cases hl : entries.lookup keyStr with
          | some child => simp [stepGet, hl] at h
          | none =>
              simp only [stepGet, hl, Except.error.injEq] at h
              refine ⟨"key " ++ goQuote keyStr ++ " not found ", "", ?_⟩
              rw [← h]
              rw [show (" not found at position " : String) =
                " not found " ++ "at position " from rfl]
              simp only [String.append_assoc, String.append_empty]
      | int n =>
          simp only [stepGet, Except.error.injEq] at h
          refine ⟨"key must be string for object access, got " ++
            (GoKey.int n).tyOf ++ " ", "", ?_⟩
          rw [← h]
          rw [show (" at position " : String) = " " ++ "at position " from rfl]
          simp only [String.append_assoc, String.append_empty]
      | num q =>
          simp only [stepGet, Except.error.injEq] at h
          refine ⟨"key must be string for object access, got " ++
            (GoKey.num q).tyOf ++ " ", "", ?_⟩
          rw [← h]
          rw [show (" at position " : String) = " " ++ "at position " from rfl]
          simp only [String.append_assoc, String.append_empty]
      | other t r =>
          simp only [stepGet, Except.error.injEq] at h
          refine ⟨"key must be string for object access, got " ++
            (GoKey.other t r).tyOf ++ " ", "", ?_⟩
          rw [← h]
          rw [show (" at position " : String) = " " ++ "at position " from rfl]
          simp only [String.append_assoc, String.append_empty]
  | arr elems =>
      cases hc : convertToIndex key with
      | error convErr =>
          simp only [stepGet, hc, Except.error.injEq] at h
          refine ⟨"invalid array index " ++ keyRepr g key ++ " ",
            ": " ++ convErr, ?_⟩
          rw [← h]
          rw [show (" at position " : String) = " " ++ "at position " from rfl]
          simp only [String.append_assoc]
      | ok idx =>
          by_cases hb : idx < 0 ∨ idx ≥ (elems.length : Int)
          · simp only [stepGet, hc, if_pos hb, Except.error.injEq] at h
            refine ⟨"array index " ++ toString idx ++ " out of bounds (length: " ++
              toString elems.length ++ ") ", "", ?_⟩
            rw [← h]
            rw [show (") at position " : String) = ") " ++ "at position " from rfl]
            simp only [String.append_assoc, String.append_empty]
          · simp [stepGet, hc, if_neg hb] at h
  | bool b =>
      simp only [stepGet, Except.error.injEq] at h
      refine ⟨"cannot access key " ++ keyRepr g key ++ " on type " ++
        goTypeName (.bool b) ++ " ", "", ?_⟩
      rw [← h]
      rw [show (" at position " : String) = " " ++ "at position " from rfl]
      simp only [String.append_assoc, String.append_empty]
  | num q =>
      simp only [stepGet, Except.error.injEq] at h
      refine ⟨"cannot access key " ++ keyRepr g key ++ " on type " ++
        goTypeName (.num q) ++ " ", "", ?_⟩
      rw [← h]
      rw [show (" at position " : String) = " " ++ "at position " from rfl]
      simp only [String.append_assoc, String.append_empty]
  | int n =>
      simp only [stepGet, Except.error.injEq] at h
      refine ⟨"cannot access key " ++ keyRepr g key ++ " on type " ++
        goTypeName (.int n) ++ " ", "", ?_⟩
      rw [← h]
      rw [show (" at position " : String) = " " ++ "at position " from rfl]
      simp only [String.append_assoc, String.append_empty]
  | str s =>
      simp only [stepGet, Except.error.injEq] at h
      refine ⟨"cannot access key " ++ keyRepr g key ++ " on type " ++
        goTypeName (.str s) ++ " ", "", ?_⟩
      rw [← h]
      rw [show (" at position " : String) = " " ++ "at position " from rfl]
      simp only [String.append_assoc, String.append_empty]
  | other t r =>
      simp only [stepGet, Except.error.injEq] at h
      refine ⟨"cannot access key " ++ keyRepr g key ++ " on type " ++
        goTypeName (.other t r) ++ " ", "", ?_⟩
      rw [← h]
      rw [show (" at position " : String) = " " ++ "at position " from rfl]
      simp only [String.append_assoc, String.append_empty]

/-! ### Claim theorems -/

/-- C1: for every `JSONValue` in failure state, every navigation or
coercion operation (`Get` with any key sequence, `String`, `Int`,
`Float64`, `Bool`, `Array`, `Object`) yields a result carrying exactly
the same error as the receiver — identical operation tag and message —
never a cleared, replaced or wrapped error. -/
theorem sticky_error_propagation (g : Rat → String) (fmtV : GoVal → String)
    (pf : String → Option Rat) (j : JSONValue) (e : JSONError)
    (h : j.err = some e) (keys : List GoKey) :
    (j.Get g keys).err = some e ∧ j.Get g keys = j ∧
    j.String' fmtV = .error e ∧ j.Int' = .error e ∧
    j.Float64 pf = .error e ∧ j.Bool' = .error e ∧
    j.Array' = .error e ∧ j.Object = .error e := by
  refine ⟨?_, ?_, ?_, ?_, ?_, ?_, ?_, ?_⟩ <;>
    simp [JSONValue.Get, JSONValue.String', JSONValue.Int', JSONValue.Float64,
      JSONValue.Bool', JSONValue.Array', JSONValue.Object, h]

/-- Witness for C1 at a concrete failed value. -/
theorem sticky_error_propagation_witness :
    (JSONValue.mk .null (some ⟨"Get", "boom"⟩)).err = some ⟨"Get", "boom"⟩ ∧
    (((JSONValue.mk .null (some ⟨"Get", "boom"⟩)).Get (fun _ => "")
        [.str "a", .int 0]).err = some ⟨"Get", "boom"⟩ ∧
      (JSONValue.mk .null (some ⟨"Get", "boom"⟩)).Get (fun _ => "")
        [.str "a", .int 0] = JSONValue.mk .null (some ⟨"Get", "boom"⟩) ∧
      (JSONValue.mk .null (some ⟨"Get", "boom"⟩)).String' (fun _ => "") =
        .error ⟨"Get", "boom"⟩ ∧
      (JSONValue.mk .null (some ⟨"Get", "boom"⟩)).Int' = .error ⟨"Get", "boom"⟩ ∧
      (JSONValue.mk .null (some ⟨"Get", "boom"⟩)).Float64 (fun _ => none) =
        .error ⟨"Get", "boom"⟩ ∧
      (JSONValue.mk .null (some ⟨"Get", "boom"⟩)).Bool' = .error ⟨"Get", "boom"⟩ ∧
      (JSONValue.mk .null (some ⟨"Get", "boom"⟩)).Array' = .error ⟨"Get", "boom"⟩ ∧
      (JSONValue.mk .null (some ⟨"Get", "boom"⟩)).Object = .error ⟨"Get", "boom"⟩) :=
  ⟨rfl, sticky_error_propagation (fun _ => "") (fun _ => "") (fun _ => none)
    (JSONValue.mk .null (some ⟨"Get", "boom"⟩)) ⟨"Get", "boom"⟩ rfl
    [.str "a", .int 0]⟩

/-- C5 counterexample: a coercion called on an already-failed value
returns the receiver's error with its original operation tag (here
`"Get"`), not the coercion method's own name (`"Int"`, `"Bool"`), so the
claim that the coercion method name becomes the operation tag is false. -/
theorem coercion_tag_counterexample :
    (JSONValue.mk .null (some ⟨"Get", "boom"⟩)).Int' = .error ⟨"Get", "boom"⟩ ∧
    (JSONValue.mk .null (some ⟨"Get", "boom"⟩)).Bool' = .error ⟨"Get", "boom"⟩ ∧
    ("Get" : String) ≠ "Int" ∧ ("Get" : String) ≠ "Bool" :=
  ⟨rfl, rfl, by decide, by decide⟩

/-- C5 amended: a coercion method called on a `JSONValue` already in
failure state returns the receiver's error unchanged, carrying the
operation tag of the operation that originally failed, not the coercion
method's own name. -/
theorem coercion_propagates_original_error (fmtV : GoVal → String)
    (pf : String → Option Rat) (j : JSONValue) (e : JSONError)
    (h : j.err = some e) :
    j.String' fmtV = .error e ∧ j.Int' = .error e ∧
    j.Float64 pf = .error e ∧ j.Bool' = .error e := by
  refine ⟨?_, ?_, ?_, ?_⟩ <;>
    simp [JSONValue.String', JSONValue.Int', JSONValue.Float64,
      JSONValue.Bool', h]

/-- Witness for the amended C5 at a concrete failed value. -/
theorem coercion_propagates_original_error_witness :
    (JSONValue.mk .null (some ⟨"Parse", "empty string"⟩)).err =
      some ⟨"Parse", "empty string"⟩ ∧
    ((JSONValue.mk .null (some ⟨"Parse", "empty string"⟩)).String' (fun _ => "") =
        .error ⟨"Parse", "empty string"⟩ ∧
      (JSONValue.mk .null (some ⟨"Parse", "empty string"⟩)).Int' =
        .error ⟨"Parse", "empty string"⟩ ∧
      (JSONValue.mk .null (some ⟨"Parse", "empty string"⟩)).Float64 (fun _ => none) =
        .error ⟨"Parse", "empty string"⟩ ∧
      (JSONValue.mk .null (some ⟨"Parse", "empty string"⟩)).Bool' =
        .error ⟨"Parse", "empty string"⟩) :=
  ⟨rfl, coercion_propagates_original_error (fun _ => "") (fun _ => none)
    (JSONValue.mk .null (some ⟨"Parse", "empty string"⟩))
    ⟨"Parse", "empty string"⟩ rfl⟩

/-- C9: `Parse` applied to a value that is already a `JSONValue` (no
destination argument) returns it unchanged, data and error alike, in both
success and failure state; hence `Parse` is idempotent:
`Parse (Parse x) = Parse x` for every input `x`. -/
theorem parse_idempotent (decode : String → Except String GoVal)
    (marshal : GoVal → Except String String) (v : JSONValue) (x : ParseArg) :
    Parse decode marshal (.jval v) = v ∧
    Parse decode marshal (.jval (Parse decode marshal x)) =
      Parse decode marshal x :=
  ⟨rfl, rfl⟩

/-- C10: `Raw` on a failed value returns the nil interface regardless of
the stored payload; on a successful value it returns the wrapped node
unchanged. -/
theorem raw_spec (j : JSONValue) :
    (∀ e, j.err = some e → j.Raw = .null) ∧
    (j.err = none → j.Raw = j.data) := by
  constructor
  · intro e he; simp [JSONValue.Raw, he]
  · intro he; simp [JSONValue.Raw, he]

/-- Witness for C10: a failed value that still stores a payload exposes
nil, a successful value exposes its node. -/
theorem raw_spec_witness :
    ((JSONValue.mk (.bool true) (some ⟨"Get", "x"⟩)).err = some ⟨"Get", "x"⟩ ∧
      (JSONValue.mk (.bool true) (some ⟨"Get", "x"⟩)).Raw = .null) ∧
    ((JSONValue.mk (.bool true) none).err = none ∧
      (JSONValue.mk (.bool true) none).Raw = .bool true) :=
  ⟨⟨rfl, (raw_spec (JSONValue.mk (.bool true) (some ⟨"Get", "x"⟩))).1
      ⟨"Get", "x"⟩ rfl⟩,
    ⟨rfl, (raw_spec (JSONValue.mk (.bool true) none)).2 rfl⟩⟩

/-- C3: on a valid value wrapping a string node, `StringOr` substitutes
the default whenever the coerced string is empty, so a present
empty-string value is indistinguishable from an absent one; in
particular on `{"name":""}`, `Get "name"` then `StringOr "fallback"`
yields `"fallback"`, not `""`. -/
theorem stringOr_empty_default (fmtV : GoVal → String) (g : Rat → String)
    (j : JSONValue) (dflt : String)
    (h1 : j.err = none) (h2 : j.data = .str "") :
    j.StringOr fmtV dflt = dflt ∧
    ((Valid (.obj [("name", .str "")])).Get g [.str "name"]).StringOr
      fmtV "fallback" = "fallback" := by
  constructor
  · simp [JSONValue.StringOr, JSONValue.String', h1, h2]
  · rfl

/-- Witness for C3 at the concrete input of the claim. -/
theorem stringOr_empty_default_witness :
    (Valid (.str "")).err = none ∧ (Valid (.str "")).data = .str "" ∧
    ((Valid (.str "")).StringOr (fun _ => "") "fb" = "fb" ∧
      ((Valid (.obj [("name", .str "")])).Get (fun _ => "")
        [.str "name"]).StringOr (fun _ => "") "fallback" = "fallback") :=
  ⟨rfl, rfl, stringOr_empty_default (fun _ => "") (fun _ => "")
    (Valid (.str "")) "fb" rfl rfl⟩

/-- C2: on a valid receiver, `Get` walks the key sequence left to right;
the first failing segment determines the sole error, whose message cites
that segment's zero-based position, and later segments are never
evaluated (the result is the same for every continuation of the path). -/
theorem get_fail_fast (g : Rat → String) (d c : GoVal)
    (pre post post' : List GoKey) (k : GoKey) (e : JSONError)
    (hpre : walkSteps g d pre 0 = .ok c)
    (hstep : stepGet g c k pre.length = .error e) :
    (Valid d).Get g (pre ++ k :: post) = ⟨.null, some e⟩ ∧
    (Valid d).Get g (pre ++ k :: post') = ⟨.null, some e⟩ ∧
    ∃ a b, e.msg = a ++ ("at position " ++ toString pre.length) ++ b := by
  have main : ∀ tail : List GoKey,
      (Valid d).Get g (pre ++ k :: tail) = ⟨.null, some e⟩ := by
    intro tail
    rw [Get_ne_nil _ _ _ (by simp)]
    rw [getLoop_eq_walkSteps]
    rw [walkSteps_append]
    rw [hpre]
    simp only [Nat.zero_add]
    unfold walkSteps
    rw [hstep]
  exact ⟨main post, main post',
    stepGet_error_position g c k pre.length e hstep⟩

/-- Witness for C2: `get("a","b","c")` on `{"a":{"x":1}}` fails for
`"b"` at position 1 and the third key is never reached. -/
theorem get_fail_fast_witness :
    walkSteps (fun _ => "") (.obj [("a", .obj [("x", .int 1)])]) [.str "a"] 0 =
      .ok (.obj [("x", .int 1)]) ∧
    stepGet (fun _ => "") (.obj [("x", .int 1)]) (.str "b")
      ([GoKey.str "a"].length) =
      .error ⟨"Get", "key \"b\" not found at position 1"⟩ ∧
    ((Valid (.obj [("a", .obj [("x", .int 1)])])).Get (fun _ => "")
        ([.str "a"] ++ .str "b" :: [.str "c"]) =
        ⟨.null, some ⟨"Get", "key \"b\" not found at position 1"⟩⟩ ∧
      (Valid (.obj [("a", .obj [("x", .int 1)])])).Get (fun _ => "")
        ([.str "a"] ++ .str "b" :: []) =
        ⟨.null, some ⟨"Get", "key \"b\" not found at position 1"⟩⟩ ∧
      ∃ a b, ("key \"b\" not found at position 1" : String) =
        a ++ ("at position " ++ toString ([GoKey.str "a"].length)) ++ b) :=
  ⟨rfl, rfl, get_fail_fast (fun _ => "") (.obj [("a", .obj [("x", .int 1)])])
    (.obj [("x", .int 1)]) [.str "a"] [.str "c"] [] (.str "b")
    ⟨"Get", "key \"b\" not found at position 1"⟩ rfl rfl⟩

/-- C4 counterexample: a negative result of index conversion is not a
conversion failure — `convertToIndex` succeeds on the native integer `-1`
and on the signed digit string `"-1"` — and `Get` on an array then fails
through the bounds check with an out-of-bounds message, not with an
"invalid array index" message as the claim states. -/
theorem convert_index_negative_counterexample :
    convertToIndex (.int (-1)) = .ok (-1) ∧
    convertToIndex (.str "-1") = .ok (-1) ∧
    (Valid (.arr [.null])).Get (fun _ => "") [.int (-1)] =
      ⟨.null, some ⟨"Get",
        "array index -1 out of bounds (length: 1) at position 0"⟩⟩ :=
  ⟨rfl, rfl, rfl⟩

/-- C4 amended: a path segment converts to an index when it is a native
integer (of either sign), a string accepted by the base-10 integer parser
(optional sign then digits), or a number truncated toward zero; only a
representation outside these cases fails conversion, and `Get` then fails
with an "invalid array index" message; a negative converted index is
instead rejected by the bounds check with an out-of-bounds message. -/
theorem get_array_index_conversion (g : Rat → String) (l : List GoVal)
    (k : GoKey) :
    (∀ m, convertToIndex k = .error m →
      (Valid (.arr l)).Get g [k] =
        ⟨.null, some ⟨"Get", "invalid array index " ++ keyRepr g k ++
          " at position " ++ toString (0 : Nat) ++ ": " ++ m⟩⟩) ∧
    (∀ idx, convertToIndex k = .ok idx → idx < 0 →
      (Valid (.arr l)).Get g [k] =
        ⟨.null, some ⟨"Get", "array index " ++ toString idx ++
          " out of bounds (length: " ++ toString l.length ++
          ") at position " ++ toString (0 : Nat)⟩⟩) ∧
    (∀ n : Int, convertToIndex (.int n) = .ok n) ∧
    (∀ q : Rat, convertToIndex (.num q) = .ok (ratTrunc q)) := by
  refine ⟨?_, ?_, fun _ => rfl, fun _ => rfl⟩
  · intro m hm
    rw [Get_ne_nil _ _ _ (by simp)]
    simp [getLoop, stepGet, hm]
  · intro idx hidx hneg
    rw [Get_ne_nil _ _ _ (by simp)]
    have : idx < 0 ∨ idx ≥ (l.length : Int) := Or.inl hneg
    simp [getLoop, stepGet, hidx, this]

/-- Witness for the amended C4: an unconvertible key (a channel value)
gives the invalid-index error, and `-1` gives the bounds error. -/
theorem get_array_index_conversion_witness :
    convertToIndex (.other "chan int" "0xc0") =
      .error "cannot convert chan int to array index" ∧
    convertToIndex (.int (-1)) = .ok (-1) ∧ ((-1 : Int) < 0) ∧
    (Valid (.arr [.null])).Get (fun _ => "") [.other "chan int" "0xc0"] =
      ⟨.null, some ⟨"Get", "invalid array index " ++
        keyRepr (fun _ => "") (.other "chan int" "0xc0") ++
        " at position " ++ toString (0 : Nat) ++ ": " ++
        "cannot convert chan int to array index"⟩⟩ ∧
    (Valid (.arr [.null])).Get (fun _ => "") [.int (-1)] =
      ⟨.null, some ⟨"Get", "array index " ++ toString (-1 : Int) ++
        " out of bounds (length: " ++ toString (1 : Nat) ++
        ") at position " ++ toString (0 : Nat)⟩⟩ :=
  ⟨rfl, rfl, by decide,
    (get_array_index_conversion (fun _ => "") [.null]
      (.other "chan int" "0xc0")).1 "cannot convert chan int to array index" rfl,
    (get_array_index_conversion (fun _ => "") [.null] (.int (-1))).2.1
      (-1) rfl (by decide)⟩

/-- `isNil` decides being the nil interface. -/
theorem GoVal.isNil_eq_true_iff (d : GoVal) : d.isNil = true ↔ d = .null := by
  cases d <;> simp [GoVal.isNil]

/-- C6: `IsNull` is true exactly on a success-state value wrapping the
null node and never on a failed value; hence `Get` of a key mapped to
JSON null yields a value whose `IsNull` is true, while `Get` of a
missing key yields a failed value whose `IsNull` is false. -/
theorem isNull_spec (g : Rat → String) (j : JSONValue)
    (m : List (String × GoVal)) (k k' : String)
    (h1 : m.lookup k = some .null) (h2 : m.lookup k' = none) :
    (j.IsNull = true ↔ j.err = none ∧ j.data = .null) ∧
    (∀ e, j.err = some e → j.IsNull = false) ∧
    ((Valid (.obj m)).Get g [.str k]).IsNull = true ∧
    ((Valid (.obj m)).Get g [.str k']).IsNull = false := by
  refine ⟨?_, ?_, ?_, ?_⟩
  · simp [JSONValue.IsNull, Bool.and_eq_true, Option.isNone_iff_eq_none,
      GoVal.isNil_eq_true_iff]
  · intro e he; simp [JSONValue.IsNull, he]
  · rw [Get_ne_nil _ _ _ (by simp)]
    simp [getLoop, stepGet, h1, JSONValue.IsNull, GoVal.isNil]
  · rw [Get_ne_nil _ _ _ (by simp)]
    simp [getLoop, stepGet, h2, JSONValue.IsNull]

/-- Witness for C6 on `{"k": null}` with keys `"k"` and `"missing"`. -/
theorem isNull_spec_witness :
    ([("k", GoVal.null)] : List (String × GoVal)).lookup "k" = some .null ∧
    ([("k", GoVal.null)] : List (String × GoVal)).lookup "missing" = none ∧
    (((Valid (.bool true)).IsNull = true ↔
        (Valid (.bool true)).err = none ∧ (Valid (.bool true)).data = .null) ∧
      (∀ e, (Valid (.bool true)).err = some e →
        (Valid (.bool true)).IsNull = false) ∧
      ((Valid (.obj [("k", .null)])).Get (fun _ => "") [.str "k"]).IsNull =
        true ∧
      ((Valid (.obj [("k", .null)])).Get (fun _ => "")
        [.str "missing"]).IsNull = false) :=
  ⟨rfl, rfl, isNull_spec (fun _ => "") (Valid (.bool true))
    [("k", GoVal.null)] "k" "missing" rfl rfl⟩

/-- C7: for an array of length N (nonempty), `Get` with index N-1
succeeds with the last element, and `Get` with index N fails with a
bounds error whose message cites the length N. -/
theorem array_bounds_boundary (g : Rat → String) (l : List GoVal)
    (h : l ≠ []) :
    (Valid (.arr l)).Get g [.int ((l.length : Int) - 1)] =
      ⟨l.getLast h, none⟩ ∧
    (Valid (.arr l)).Get g [.int (l.length : Int)] =
      ⟨.null, some ⟨"Get", "array index " ++ toString ((l.length : Int)) ++
        " out of bounds (length: " ++ toString l.length ++
        ") at position " ++ toString (0 : Nat)⟩⟩ := by
  have hpos : 0 < l.length := List.length_pos.mpr h
  constructor
  · rw [Get_ne_nil _ _ _ (by simp)]
    have hcond : ¬ ((l.length : Int) - 1 < 0 ∨
        (l.length : Int) - 1 ≥ (l.length : Int)) := by omega
    have hstep : stepGet g (.arr l) (.int ((l.length : Int) - 1)) 0 =
        .ok (l.getD (((l.length : Int) - 1).toNat) .null) := by
      simp only [stepGet, convertToIndex]
      rw [if_neg hcond]
    have hloop : getLoop g (.arr l) [.int ((l.length : Int) - 1)] 0 =
        match stepGet g (.arr l) (.int ((l.length : Int) - 1)) 0 with
        | .error e => ⟨.null, some e⟩
        | .ok next => getLoop g next [] 1 := rfl
    rw [hloop, hstep]
    show JSONValue.mk (l.getD (((l.length : Int) - 1).toNat) .null) none = _
    have htn : (((l.length : Int) - 1)).toNat = l.length - 1 := by omega
    rw [htn]
    rw [List.getD_eq_getElem _ _ (by omega)]
    rw [List.getLast_eq_getElem]
  · rw [Get_ne_nil _ _ _ (by simp)]
    have hcond : ((l.length : Int) < 0 ∨ (l.length : Int) ≥ (l.length : Int)) := by
      omega
    have hstep : stepGet g (.arr l) (.int (l.length : Int)) 0 =
        .error ⟨"Get", "array index " ++ toString ((l.length : Int)) ++
          " out of bounds (length: " ++ toString l.length ++
          ") at position " ++ toString (0 : Nat)⟩ := by
      simp only [stepGet, convertToIndex]
      rw [if_pos hcond]
    have hloop : getLoop g (.arr l) [.int (l.length : Int)] 0 =
        match stepGet g (.arr l) (.int (l.length : Int)) 0 with
        | .error e => ⟨.null, some e⟩
        | .ok next => getLoop g next [] 1 := rfl
    rw [hloop, hstep]

/-- Witness for C7 on a two-element array. -/
theorem array_bounds_boundary_witness :
    ([(.bool true : GoVal), .str "x"] ≠ []) ∧
    ((Valid (.arr [.bool true, .str "x"])).Get (fun _ => "")
        [.int (([(.bool true : GoVal), .str "x"].length : Int) - 1)] =
        ⟨.str "x", none⟩ ∧
      (Valid (.arr [.bool true, .str "x"])).Get (fun _ => "")
        [.int ([(.bool true : GoVal), .str "x"].length : Int)] =
        ⟨.null, some ⟨"Get", "array index 2 out of bounds (length: 2) " ++
          "at position 0"⟩⟩) := by
  refine ⟨by simp, ?_⟩
  have h := array_bounds_boundary (fun _ => "")
    [(.bool true : GoVal), .str "x"] (by simp)
  exact h

/-- C8: `Stringify` on a failed value returns that value's error and no
string; a Go nil input or a value wrapping the null node renders as the
exact text `"null"` with no error; an encode failure on another input is
reported with operation tag `"Stringify"`. -/
theorem stringify_spec (encode : GoVal → Except String String)
    (v : JSONValue) (e : JSONError) (n : GoVal) (m : String)
    (hv : v.err = some e)
    (hnull : encode .null = .ok "null\n")
    (henc : encode n = .error m) :
    Stringify encode (.jval v) = .error e ∧
    Stringify encode (.raw .null) = .ok "null" ∧
    (∀ w : JSONValue, w.err = none → w.data = .null →
      Stringify encode (.jval w) = .ok "null") ∧
    Stringify encode (.raw n) = .error ⟨"Stringify", m⟩ := by
  refine ⟨?_, rfl, ?_, ?_⟩
  · simp [Stringify, hv]
  · intro w hw1 hw2
    obtain ⟨wd, we⟩ := w
    simp only at hw1 hw2
    subst hw1; subst hw2
    show encodeVia encode GoVal.null = .ok "null"
    unfold encodeVia
    rw [hnull]
    rfl
  · cases n with
    | null => rw [hnull] at henc; simp at henc
    | bool b =>
        show encodeVia encode (.bool b) = .error ⟨"Stringify", m⟩
        unfold encodeVia; rw [henc]
    | num q =>
        show encodeVia encode (.num q) = .error ⟨"Stringify", m⟩
        unfold encodeVia; rw [henc]
    | int nn =>
        show encodeVia encode (.int nn) = .error ⟨"Stringify", m⟩
        unfold encodeVia; rw [henc]
    | str s =>
        show encodeVia encode (.str s) = .error ⟨"Stringify", m⟩
        unfold encodeVia; rw [henc]
    | arr elems =>
        show encodeVia encode (.arr elems) = .error ⟨"Stringify", m⟩
        unfold encodeVia; rw [henc]
    | obj entries =>
        show encodeVia encode (.obj entries) = .error ⟨"Stringify", m⟩
        unfold encodeVia; rw [henc]
    | other t r =>
        show encodeVia encode (.other t r) = .error ⟨"Stringify", m⟩
        unfold encodeVia; rw [henc]

/-- Witness for C8 with the concrete encoder `encodeW`. -/
theorem stringify_spec_witness :
    (JSONValue.mk (.bool true) (some ⟨"Parse", "bad"⟩)).err =
      some ⟨"Parse", "bad"⟩ ∧
    encodeW .null = .ok "null\n" ∧
    encodeW (.bool true) = .error "boom" ∧
    (Stringify encodeW
        (.jval (JSONValue.mk (.bool true) (some ⟨"Parse", "bad"⟩))) =
        .error ⟨"Parse", "bad"⟩ ∧
      Stringify encodeW (.raw .null) = .ok "null" ∧
      (∀ w : JSONValue, w.err = none → w.data = .null →
        Stringify encodeW (.jval w) = .ok "null") ∧
      Stringify encodeW (.raw (.bool true)) = .error ⟨"Stringify", "boom"⟩) :=
  ⟨rfl, rfl, rfl, stringify_spec encodeW
    (JSONValue.mk (.bool true) (some ⟨"Parse", "bad"⟩)) ⟨"Parse", "bad"⟩
    (.bool true) "boom" rfl rfl rfl⟩
